import Mathlib

/-!
Verification of the telemetry aggregation core (`data_handler.py` and
`gcp_publisher.py`): a shallow embedding of `DataHandler` — snapshot store,
bounded history deque, listener registry, throttled broadcast and the
best-effort cloud publish path — together with theorems checking the
documented properties of that core.
-/

namespace Telemetry

/-- Python scalar values carried in parsed telemetry messages. -/
inductive Val where
  | none
  | num (q : ℚ)
  | str (s : String)
deriving DecidableEq

/-- Python truthiness of a scalar value: `None`, `0`/`0.0` and `""` are falsy. -/
def Val.truthy : Val → Bool
  | Val.none => false
  | Val.num q => if q = 0 then false else true
  | Val.str s => if s = "" then false else true

/-- A flat Python dict (a parsed message, a history entry, a cloud payload):
an association list of key/value pairs in insertion order. -/
abbrev Fields := List (Val × Val)

/-- Values of the broadcast snapshot copy: a scalar (the ts field) or a
nested per-category field dict. -/
inductive SnapVal where
  | prim (v : Val)
  | obj (f : Fields)
deriving DecidableEq

/-- The dict sent to websocket listeners. -/
abbrev SnapDict := List (Val × SnapVal)

/-- Python dict assignment `d[k] = v`: replaces in place if the key is
present, otherwise appends at the end. -/
def dinsert {K V : Type} [DecidableEq K] (d : List (K × V)) (k : K) (v : V) :
    List (K × V) :=
  if d.any (fun p => decide (p.1 = k)) then
    d.map (fun p => if p.1 = k then (k, v) else p)
  else d ++ [(k, v)]

/-- Python dict lookup `d.get(k)`. -/
def dget? {K V : Type} [DecidableEq K] (d : List (K × V)) (k : K) : Option V :=
  (d.find? (fun p => decide (p.1 = k))).map Prod.snd

/-- Python dict merge `\x7b**a, **b\x7d`: entries of `b` update `a` in order. -/
def dunion {K V : Type} [DecidableEq K] (a b : List (K × V)) : List (K × V) :=
  b.foldl (fun acc p => dinsert acc p.1 p.2) a

/-- Models `collections.deque(maxlen).append`: append on the right, dropping from
the left down to `maxlen` elements. -/
def dequeAppend {α : Type} (maxlen : ℕ) (h : List α) (e : α) : List α :=
  let h2 := h ++ [e]
  h2.drop (h2.length - maxlen)

/-- State of a `DataHandler` instance.  Listener handles are identified by
natural numbers; `lastEmit` mirrors `_last_emit`. -/
structure DataHandler where
  snapshot : List (Val × Fields)
  history : List Fields
  historySize : ℕ
  listeners : List ℕ
  emitInterval : ℚ
  lastEmit : ℚ
deriving DecidableEq

/-- Models `DataHandler.__init__(history_size, emit_interval)`: empty snapshot,
empty bounded history, empty listener set, `_last_emit = 0.0`. -/
def DataHandler.init (history_size : ℕ) (emit_interval : ℚ) : DataHandler :=
  { snapshot := [], history := [], historySize := history_size,
    listeners := [], emitInterval := emit_interval, lastEmit := 0 }

/-- Default of the `history_size` parameter of `DataHandler.__init__`. -/
def defaultHistorySize : ℕ := 1000

/-- Default of the `emit_interval` parameter of `DataHandler.__init__`. -/
def defaultEmitInterval : ℚ := 1/2

/-- A `DataHandler()` constructed with both defaults. -/
def defaultDataHandler : DataHandler :=
  DataHandler.init defaultHistorySize defaultEmitInterval

/-- Models `register_listener`: `set.add`, a no-op when already present. -/
def register_listener (ws : ℕ) (st : DataHandler) : DataHandler :=
  if ws ∈ st.listeners then st
  else { st with listeners := st.listeners ++ [ws] }

/-- Models `unregister_listener`: `set.discard`, a no-op when absent. -/
def unregister_listener (ws : ℕ) (st : DataHandler) : DataHandler :=
  { st with listeners := st.listeners.filter (fun x => decide (x ≠ ws)) }

/-- The history entry built by `process_parsed_message`:
`\x7b"ts": time.time(), **data\x7d`. -/
def mkEntry (tEntry : ℚ) (data : Fields) : Fields :=
  dunion [(Val.str "ts", Val.num tEntry)] data

/-- The snapshot update of `process_parsed_message`: when `data.get("type")`
is truthy, set `snapshot[msg_type]` to all items of `data` except `"type"`;
otherwise leave the snapshot alone. -/
def applySnap (data : Fields) (snap : List (Val × Fields)) :
    List (Val × Fields) :=
  match dget? data (Val.str "type") with
  | some v =>
      if v.truthy then
        dinsert snap v (data.filter (fun p => decide (p.1 ≠ Val.str "type")))
      else snap
  | Option.none => snap

/-- The locked section of `process_parsed_message`: append the timestamped
entry to the bounded history and update the snapshot. -/
def processCore (tEntry : ℚ) (data : Fields) (st : DataHandler) : DataHandler :=
  { st with
    history := dequeAppend st.historySize st.history (mkEntry tEntry data),
    snapshot := applySnap data st.snapshot }

/-- The broadcast payload `\x7b"ts": time.time(), **self.snapshot\x7d`. -/
def snapshotCopy (tCopy : ℚ) (snap : List (Val × Fields)) : SnapDict :=
  dunion [(Val.str "ts", SnapVal.prim (Val.num tCopy))]
    (snap.map (fun p => (p.1, SnapVal.obj p.2)))

/-- The fan-out loop of `_maybe_broadcast`: `targets` is the copied listener
list, the second argument the live `self.listeners` set.  `fails ws = true`
means `ws.send_json` raises; the failing listener is discarded from the live
set and the loop continues.  Returns the final listener set and the
successful deliveries in order. -/
def fanout (fails : ℕ → Bool) (payload : SnapDict) :
    List ℕ → List ℕ → List ℕ × List (ℕ × SnapDict)
  | [], listeners => (listeners, [])
  | ws :: rest, listeners =>
      if fails ws then
        fanout fails payload rest (listeners.filter (fun x => decide (x ≠ ws)))
      else
        let r := fanout fails payload rest listeners
        (r.1, (ws, payload) :: r.2)

/-- Models `_maybe_broadcast` at wall-clock time `now`, with `tCopy` the time read
inside the lock for the payload ts: return unchanged with no deliveries when
inside the throttle window, otherwise stamp `_last_emit = now`, copy snapshot
and listeners under the lock, and fan out. -/
def maybeBroadcast (fails : ℕ → Bool) (now tCopy : ℚ) (st : DataHandler) :
    DataHandler × List (ℕ × SnapDict) :=
  if now - st.lastEmit < st.emitInterval then (st, [])
  else
    let payload := snapshotCopy tCopy st.snapshot
    let r := fanout fails payload st.listeners st.listeners
    ({ st with lastEmit := now, listeners := r.1 }, r.2)

/-- Environment flags for the fallible steps of the publish path:
whether the Pub/Sub client initialised, whether `json.dumps` raises,
whether the publish/await raises. -/
structure PubFlags where
  publisherInit : Bool
  serializeFails : Bool
  sinkFails : Bool
deriving DecidableEq

/-- Result of one `publish_telem` call. -/
inductive PublishOutcome where
  | skipped
  | published
  | failedLogged
deriving DecidableEq

/-- The body of the `try` block of `publish_telem`: serialization then
publish, either of which may raise. -/
def publishAttempt (fl : PubFlags) (data : Fields) : Except String Fields :=
  if fl.serializeFails then Except.error "serialization error"
  else if fl.sinkFails then Except.error "sink unreachable"
  else Except.ok data

/-- Models `gcp_publisher.publish_telem`: return silently when the client failed to
initialise; otherwise attempt the publish and catch any exception, logging
it. -/
def publish_telem (fl : PubFlags) (data : Fields) : PublishOutcome :=
  if fl.publisherInit = false then PublishOutcome.skipped
  else
    match publishAttempt fl data with
    | Except.ok _ => PublishOutcome.published
    | Except.error _ => PublishOutcome.failedLogged

/-- The `cloud_payload` dict of `_maybe_publish_cloud`: droneId, the
position, attitude and battery categories of the snapshot merged flat, and a
timestamp. -/
def cloudPayload (tPub : ℚ) (snap : List (Val × Fields)) : Fields :=
  let base : Fields := [(Val.str "droneId", Val.str "drone123")]
  let p1 := dunion base ((dget? snap (Val.str "position")).getD [])
  let p2 := dunion p1 ((dget? snap (Val.str "attitude")).getD [])
  let p3 := dunion p2 ((dget? snap (Val.str "battery")).getD [])
  dinsert p3 (Val.str "timestamp") (Val.num tPub)

/-- Models `_maybe_publish_cloud`: build the payload from the snapshot (no lock
taken) and spawn one `publish_telem` task; the state is untouched.  Returns
the list of spawned publishes (always a singleton) and the task's outcome. -/
def maybePublishCloud (fl : PubFlags) (tPub : ℚ) (st : DataHandler) :
    DataHandler × List Fields × PublishOutcome :=
  let payload := cloudPayload tPub st.snapshot
  (st, [payload], publish_telem fl payload)

/-- The wall-clock readings of one `process_parsed_message` call: entry ts,
the broadcast `now`, the payload ts, and the publish timestamp. -/
structure Times where
  tEntry : ℚ
  now : ℚ
  tCopy : ℚ
  tPub : ℚ
deriving DecidableEq

/-- Result of one `process_parsed_message` call: the new state, the
successful websocket deliveries, the spawned cloud publishes, and the
publish outcome. -/
structure StepResult where
  state : DataHandler
  deliveries : List (ℕ × SnapDict)
  cloudPubs : List Fields
  pubOutcome : PublishOutcome
deriving DecidableEq

/-- Models `process_parsed_message`: append/update under the lock, then
`_maybe_broadcast`, then `_maybe_publish_cloud`. -/
def process_parsed_message (fails : ℕ → Bool) (fl : PubFlags) (tm : Times)
    (data : Fields) (st : DataHandler) : StepResult :=
  let st1 := processCore tm.tEntry data st
  let br := maybeBroadcast fails tm.now tm.tCopy st1
  let pub := maybePublishCloud fl tm.tPub br.1
  ⟨pub.1, br.2, pub.2.1, pub.2.2⟩

/-- Fold a list of messages through `process_parsed_message`. -/
def runMessages (fails : ℕ → Bool) (fl : PubFlags)
    (inputs : List (Times × Fields)) (st : DataHandler) : DataHandler :=
  inputs.foldl (fun s p => (process_parsed_message fails fl p.1 p.2 s).state) st

/-- Models `get_snapshot`: an independent copy of the snapshot with a fresh ts. -/
def get_snapshot (t : ℚ) (st : DataHandler) : SnapDict :=
  snapshotCopy t st.snapshot

/-- Python tail slicing `l[-limit:]` for a nonnegative `limit`: note that
`l[-0:]` is `l[0:]`, the whole list. -/
def pyTailSlice {α : Type} (l : List α) (limit : ℕ) : List α :=
  if limit = 0 then l else l.drop (l.length - limit)

/-- Models `get_history(limit)`: `list(self.history)[-limit:]`. -/
def get_history (limit : ℕ) (st : DataHandler) : List Fields :=
  pyTailSlice st.history limit

/-- An interleaved schedule of store updates (the locked section of
`process_parsed_message`) and `_maybe_broadcast` attempts, used to state the
temporal throttling properties. -/
inductive EvOp where
  | apply (tEntry : ℚ) (data : Fields)
  | attempt (now tCopy : ℚ)

/-- Run a schedule, recording for every broadcast that actually fires its
wall-clock time and the successful deliveries. -/
def runOps (fails : ℕ → Bool) :
    List EvOp → DataHandler → DataHandler × List (ℚ × List (ℕ × SnapDict))
  | [], st => (st, [])
  | EvOp.apply t data :: rest, st => runOps fails rest (processCore t data st)
  | EvOp.attempt now tCopy :: rest, st =>
      if now - st.lastEmit < st.emitInterval then runOps fails rest st
      else
        let r := maybeBroadcast fails now tCopy st
        let r2 := runOps fails rest r.1
        (r2.1, (now, r.2) :: r2.2)

/-- The snapshot resulting from the apply operations of a schedule (attempts
never touch the snapshot). -/
def snapAfter (ops : List EvOp) (snap : List (Val × Fields)) :
    List (Val × Fields) :=
  ops.foldl (fun s op =>
    match op with
    | EvOp.apply _ data => applySnap data s
    | EvOp.attempt _ _ => s) snap

/-! ### Lock-discipline traces

A syntactic trace of the primitive steps each method performs, annotated by
whether `self._lock` is held, transcribed from the bodies of
`_maybe_broadcast` and `_maybe_publish_cloud`. -/

/-- Primitive steps appearing in the method bodies. -/
inductive Act where
  | acquire
  | release
  | readSnapMap
  | readListenerSet
  | writeLastEmit
  | netSend
  | discardListener
  | spawnTask
deriving DecidableEq

/-- One iteration of the send loop of `_maybe_broadcast`: the send itself,
followed — only when the send raised (`ok = false`) — by re-taking the lock
to discard the listener. -/
def sendSteps (ok : Bool) : List Act :=
  if ok then [Act.netSend]
  else [Act.netSend, Act.acquire, Act.discardListener, Act.release]

/-- The steps of the delivery branch of `_maybe_broadcast`, one send per
listener: stamp `_last_emit`, copy snapshot and listeners under the lock,
release, then the send loop. -/
def broadcastFireTrace (sends : List Bool) : List Act :=
  [Act.writeLastEmit, Act.acquire, Act.readSnapMap, Act.readListenerSet,
   Act.release] ++ (sends.map sendSteps).flatten

/-- The lock-holding state after running a step list from a given state. -/
def heldAfter : List Act → Bool → Bool
  | [], h => h
  | Act.acquire :: rest, _ => heldAfter rest true
  | Act.release :: rest, _ => heldAfter rest false
  | _ :: rest, h => heldAfter rest h

/-- The steps of `_maybe_publish_cloud`: three `snapshot.get` reads to build
`cloud_payload`, then `asyncio.create_task(publish_telem(...))` — no lock is
ever taken. -/
def publishCloudTrace : List Act :=
  [Act.readSnapMap, Act.readSnapMap, Act.readSnapMap, Act.spawnTask]

/-- Annotate each step with whether the lock is held when it runs, given the
holding state on entry. -/
def lockHeld : List Act → Bool → List (Act × Bool)
  | [], _ => []
  | Act.acquire :: rest, _ => (Act.acquire, false) :: lockHeld rest true
  | Act.release :: rest, _ => (Act.release, true) :: lockHeld rest false
  | a :: rest, h => (a, h) :: lockHeld rest h

/-! ### Helper lemmas about the bounded history deque -/

lemma dequeAppend_eq {α : Type} (c : ℕ) (h : List α) (e : α) :
    dequeAppend c h e = (h ++ [e]).drop (h.length + 1 - c) := by
  simp [dequeAppend]

lemma length_dequeAppend {α : Type} (c : ℕ) (h : List α) (e : α) :
    (dequeAppend c h e).length = min (h.length + 1) c := by
  simp [dequeAppend_eq, List.length_drop]
  omega

lemma foldl_dequeAppend {α : Type} (c : ℕ) (es : List α) :
    ∀ h : List α, h.length ≤ c →
      es.foldl (dequeAppend c) h = (h ++ es).drop (h.length + es.length - c) := by
  induction es with
  | nil =>
      intro h hh
      simp [Nat.sub_eq_zero_of_le hh]
  | cons e es ih =>
      intro h hh
      rw [List.foldl_cons]
      rw [ih (dequeAppend c h e) (by rw [length_dequeAppend]; omega)]
      rw [length_dequeAppend, dequeAppend_eq]
      rw [List.drop_append_eq_append_drop, List.drop_drop, List.length_drop]
      have hsplit : h ++ e :: es = (h ++ [e]) ++ es := by simp
      rw [hsplit, List.drop_append_eq_append_drop]
      have i1 : h.length + 1 - c + (min (h.length + 1) c + es.length - c)
          = h.length + (e :: es).length - c := by
        simp only [List.length_cons]; omega
      have i2 : min (h.length + 1) c + es.length - c
            - ((h ++ [e]).length - (h.length + 1 - c))
          = h.length + (e :: es).length - c - (h ++ [e]).length := by
        simp only [List.length_cons, List.length_append, List.length_singleton]
        omega
      rw [i1, i2]
      conv_rhs => rw [List.drop_append_eq_append_drop,
        List.drop_append_eq_append_drop]

/-! ### Frame lemmas for the processing pipeline -/

lemma fanout_fst_subset (fails : ℕ → Bool) (payload : SnapDict) :
    ∀ (ts ls : List ℕ), (fanout fails payload ts ls).1 ⊆ ls := by
  intro ts
  induction ts with
  | nil => intro ls; exact fun x hx => hx
  | cons ws rest ih =>
      intro ls
      by_cases hf : fails ws
      · simp only [fanout, hf, if_true]
        exact fun x hx => List.mem_of_mem_filter (ih _ hx)
      · simp only [fanout, hf, if_false]
        exact ih ls

lemma maybeBroadcast_fst_history (fails : ℕ → Bool) (now tCopy : ℚ)
    (st : DataHandler) :
    (maybeBroadcast fails now tCopy st).1.history = st.history := by
  unfold maybeBroadcast
  split <;> rfl

lemma maybeBroadcast_fst_historySize (fails : ℕ → Bool) (now tCopy : ℚ)
    (st : DataHandler) :
    (maybeBroadcast fails now tCopy st).1.historySize = st.historySize := by
  unfold maybeBroadcast
  split <;> rfl

lemma maybeBroadcast_fst_snapshot (fails : ℕ → Bool) (now tCopy : ℚ)
    (st : DataHandler) :
    (maybeBroadcast fails now tCopy st).1.snapshot = st.snapshot := by
  unfold maybeBroadcast
  split <;> rfl

lemma maybeBroadcast_fst_emitInterval (fails : ℕ → Bool) (now tCopy : ℚ)
    (st : DataHandler) :
    (maybeBroadcast fails now tCopy st).1.emitInterval = st.emitInterval := by
  unfold maybeBroadcast
  split <;> rfl

lemma process_state_eq (fails : ℕ → Bool) (fl : PubFlags) (tm : Times)
    (data : Fields) (st : DataHandler) :
    (process_parsed_message fails fl tm data st).state
      = (maybeBroadcast fails tm.now tm.tCopy (processCore tm.tEntry data st)).1 :=
  rfl

lemma process_state_history (fails : ℕ → Bool) (fl : PubFlags) (tm : Times)
    (data : Fields) (st : DataHandler) :
    (process_parsed_message fails fl tm data st).state.history
      = dequeAppend st.historySize st.history (mkEntry tm.tEntry data) := by
  rw [process_state_eq, maybeBroadcast_fst_history]
  rfl

lemma process_state_historySize (fails : ℕ → Bool) (fl : PubFlags) (tm : Times)
    (data : Fields) (st : DataHandler) :
    (process_parsed_message fails fl tm data st).state.historySize
      = st.historySize := by
  rw [process_state_eq, maybeBroadcast_fst_historySize]
  rfl

lemma process_state_snapshot (fails : ℕ → Bool) (fl : PubFlags) (tm : Times)
    (data : Fields) (st : DataHandler) :
    (process_parsed_message fails fl tm data st).state.snapshot
      = applySnap data st.snapshot := by
  rw [process_state_eq, maybeBroadcast_fst_snapshot]
  rfl

lemma runMessages_history (fails : ℕ → Bool) (fl : PubFlags) :
    ∀ (inputs : List (Times × Fields)) (st : DataHandler),
      (runMessages fails fl inputs st).history
        = (inputs.map (fun p => mkEntry p.1.tEntry p.2)).foldl
            (dequeAppend st.historySize) st.history
      ∧ (runMessages fails fl inputs st).historySize = st.historySize := by
  intro inputs
  induction inputs with
  | nil => intro st; exact ⟨rfl, rfl⟩
  | cons p rest ih =>
      intro st
      have hstep := process_state_history fails fl p.1 p.2 st
      have hsz := process_state_historySize fails fl p.1 p.2 st
      have ihr := ih (process_parsed_message fails fl p.1 p.2 st).state
      constructor
      · show (runMessages fails fl rest
            (process_parsed_message fails fl p.1 p.2 st).state).history = _
        rw [ihr.1, hstep, hsz, List.map_cons, List.foldl_cons]
      · show (runMessages fails fl rest
            (process_parsed_message fails fl p.1 p.2 st).state).historySize = _
        rw [ihr.2, hsz]

/-! ### C1: bounded history window -/

/-- C1: for every sequence of messages processed by `process_parsed_message`
the history is the last `min N capacity` entries in arrival order; when
`N > capacity` it holds exactly `capacity` entries; `len(history) ≤ capacity`
holds after every prefix; and an insertion into a full history evicts exactly
the oldest entry. -/
theorem C1_history_window (fails : ℕ → Bool) (fl : PubFlags) (c : ℕ) (iv : ℚ)
    (inputs : List (Times × Fields)) :
    (runMessages fails fl inputs (DataHandler.init c iv)).history
        = (inputs.map (fun p => mkEntry p.1.tEntry p.2)).drop (inputs.length - c)
    ∧ (runMessages fails fl inputs (DataHandler.init c iv)).history.length
        = min inputs.length c
    ∧ (inputs.length > c →
        (runMessages fails fl inputs (DataHandler.init c iv)).history.length = c)
    ∧ (∀ pre suf, inputs = pre ++ suf →
        (runMessages fails fl pre (DataHandler.init c iv)).history.length ≤ c)
    ∧ (∀ (st : DataHandler) (t : ℚ) (d : Fields), 0 < st.historySize →
        st.history.length = st.historySize →
        (processCore t d st).history = st.history.tail ++ [mkEntry t d]) := by
  have key : ∀ ins : List (Times × Fields),
      (runMessages fails fl ins (DataHandler.init c iv)).history
        = (ins.map (fun p => mkEntry p.1.tEntry p.2)).drop (ins.length - c) := by
    intro ins
    have h := (runMessages_history fails fl ins (DataHandler.init c iv)).1
    rw [h]
    have h2 := foldl_dequeAppend (α := Fields) c
      (ins.map (fun p => mkEntry p.1.tEntry p.2)) [] (by simp)
    simpa using h2
  have klen : ∀ ins : List (Times × Fields),
      (runMessages fails fl ins (DataHandler.init c iv)).history.length
        = min ins.length c := by
    intro ins
    rw [key ins, List.length_drop, List.length_map]
    omega
  refine ⟨key inputs, klen inputs, ?_, ?_, ?_⟩
  · intro hgt
    rw [klen inputs]
    omega
  · intro pre suf _
    rw [klen pre]
    omega
  · intro st t d hpos hful
    show dequeAppend st.historySize st.history (mkEntry t d) = _
    rw [dequeAppend_eq, hful]
    have h1 : st.historySize + 1 - st.historySize = 1 := by omega
    rw [h1]
    cases hh : st.history with
    | nil => rw [hh] at hful; simp at hful; omega
    | cons a h' => simp

/-- Witness for C1 at capacity 2 with three applied events, plus the
full-history eviction clause at a concrete one-slot handler. -/
theorem C1_history_window_witness :
    ((runMessages (fun _ => false) ⟨true, false, false⟩
        [(⟨1, 1, 1, 1⟩, [(Val.str "type", Val.str "a")]),
         (⟨2, 2, 2, 2⟩, [(Val.str "type", Val.str "b")]),
         (⟨3, 3, 3, 3⟩, [(Val.str "type", Val.str "c")])]
        (DataHandler.init 2 (1/2))).history.length = 2)
    ∧ ((runMessages (fun _ => false) ⟨true, false, false⟩
        [(⟨1, 1, 1, 1⟩, [(Val.str "type", Val.str "a")])]
        (DataHandler.init 2 (1/2))).history.length ≤ 2)
    ∧ ((processCore 9 []
          (DataHandler.mk [] [[(Val.str "x", Val.num 1)]] 1 [] (1/2) 0)).history
        = (DataHandler.mk [] [[(Val.str "x", Val.num 1)]] 1 [] (1/2) 0).history.tail
            ++ [mkEntry 9 []]) :=
  ⟨(C1_history_window (fun _ => false) ⟨true, false, false⟩ 2 (1/2)
      [(⟨1, 1, 1, 1⟩, [(Val.str "type", Val.str "a")]),
       (⟨2, 2, 2, 2⟩, [(Val.str "type", Val.str "b")]),
       (⟨3, 3, 3, 3⟩, [(Val.str "type", Val.str "c")])]).2.2.1 (by decide),
   (C1_history_window (fun _ => false) ⟨true, false, false⟩ 2 (1/2)
      [(⟨1, 1, 1, 1⟩, [(Val.str "type", Val.str "a")]),
       (⟨2, 2, 2, 2⟩, [(Val.str "type", Val.str "b")]),
       (⟨3, 3, 3, 3⟩, [(Val.str "type", Val.str "c")])]).2.2.2.1
      [(⟨1, 1, 1, 1⟩, [(Val.str "type", Val.str "a")])]
      [(⟨2, 2, 2, 2⟩, [(Val.str "type", Val.str "b")]),
       (⟨3, 3, 3, 3⟩, [(Val.str "type", Val.str "c")])] rfl,
   (C1_history_window (fun _ => false) ⟨true, false, false⟩ 2 (1/2)
      []).2.2.2.2
      (DataHandler.mk [] [[(Val.str "x", Val.num 1)]] 1 [] (1/2) 0) 9 []
      (by decide) (by decide)⟩

/-! ### Fan-out lemmas -/

lemma fanout_deliv_payload (fails : ℕ → Bool) (payload : SnapDict) :
    ∀ (ts ls : List ℕ) (d : ℕ × SnapDict),
      d ∈ (fanout fails payload ts ls).2 → d.2 = payload := by
  intro ts
  induction ts with
  | nil => intro ls d hd; simp [fanout] at hd
  | cons a rest ih =>
      intro ls d hd
      cases ha : fails a with
      | true =>
          simp only [fanout, ha, if_true] at hd
          exact ih _ d hd
      | false =>
          simp only [fanout, ha, Bool.false_eq_true, if_false,
            List.mem_cons] at hd
          cases hd with
          | inl h => rw [h]
          | inr h => exact ih _ d h

lemma fanout_deliv_ids (fails : ℕ → Bool) (payload : SnapDict) :
    ∀ (ts ls : List ℕ),
      (fanout fails payload ts ls).2.map Prod.fst
        = ts.filter (fun w => !(fails w)) := by
  intro ts
  induction ts with
  | nil => intro ls; rfl
  | cons a rest ih =>
      intro ls
      cases ha : fails a with
      | true => simp [fanout, ha, ih, List.filter_cons]
      | false => simp [fanout, ha, ih, List.filter_cons]

lemma fanout_deliv_mem_targets (fails : ℕ → Bool) (payload : SnapDict) :
    ∀ (ts ls : List ℕ) (d : ℕ × SnapDict),
      d ∈ (fanout fails payload ts ls).2 → d.1 ∈ ts := by
  intro ts
  induction ts with
  | nil => intro ls d hd; simp [fanout] at hd
  | cons a rest ih =>
      intro ls d hd
      cases ha : fails a with
      | true =>
          simp only [fanout, ha, if_true] at hd
          exact List.mem_cons_of_mem a (ih _ d hd)
      | false =>
          simp only [fanout, ha, Bool.false_eq_true, if_false,
            List.mem_cons] at hd
          cases hd with
          | inl h => rw [h]; exact List.mem_cons_self a rest
          | inr h => exact List.mem_cons_of_mem a (ih _ d h)

lemma fanout_removes (fails : ℕ → Bool) (payload : SnapDict) :
    ∀ (ts ls : List ℕ) (ws : ℕ), ws ∈ ts → fails ws = true →
      ws ∉ (fanout fails payload ts ls).1 := by
  intro ts
  induction ts with
  | nil => intro ls ws h; simp at h
  | cons a rest ih =>
      intro ls ws hmem hf
      cases ha : fails a with
      | true =>
          simp only [fanout, ha, if_true]
          by_cases hws : ws = a
          · subst hws
            intro hin
            have := fanout_fst_subset fails payload rest
              (ls.filter (fun x => decide (x ≠ ws))) hin
            simp [List.mem_filter] at this
          · have hr : ws ∈ rest := by
              rcases List.mem_cons.mp hmem with h | h
              · exact absurd h hws
              · exact h
            exact ih _ ws hr hf
      | false =>
          simp only [fanout, ha, Bool.false_eq_true, if_false]
          have hws : ws ≠ a := by
            intro h
            rw [h, ha] at hf
            exact Bool.false_ne_true hf
          have hr : ws ∈ rest := by
            rcases List.mem_cons.mp hmem with h | h
            · exact absurd h hws
            · exact h
          exact ih _ ws hr hf

/-! ### C3: per-listener failure isolation -/

/-- C3: when a broadcast fires, a listener whose send raises is removed from
the active set and gets no delivery, while every non-failing listener still
receives the payload (the successful delivery targets are exactly the
non-failing listeners, in order); and a listener absent from the active set
receives no delivery from any later broadcast and is never re-added by one. -/
theorem C3_listener_isolation (fails : ℕ → Bool) (now tCopy : ℚ)
    (st : DataHandler) (ws : ℕ) :
    (¬ now - st.lastEmit < st.emitInterval →
      (ws ∈ st.listeners → fails ws = true →
        ws ∉ (maybeBroadcast fails now tCopy st).1.listeners
        ∧ ∀ d ∈ (maybeBroadcast fails now tCopy st).2, d.1 ≠ ws)
      ∧ (maybeBroadcast fails now tCopy st).2.map Prod.fst
          = st.listeners.filter (fun w => !(fails w)))
    ∧ (ws ∉ st.listeners →
        (∀ d ∈ (maybeBroadcast fails now tCopy st).2, d.1 ≠ ws)
        ∧ ws ∉ (maybeBroadcast fails now tCopy st).1.listeners) := by
  constructor
  · intro hfire
    simp only [maybeBroadcast, if_neg hfire]
    constructor
    · intro hmem hf
      constructor
      · exact fanout_removes fails _ st.listeners st.listeners ws hmem hf
      · intro d hd heq
        have hid := fanout_deliv_ids fails
          (snapshotCopy tCopy st.snapshot) st.listeners st.listeners
        have : d.1 ∈ (fanout fails (snapshotCopy tCopy st.snapshot)
            st.listeners st.listeners).2.map Prod.fst :=
          List.mem_map_of_mem Prod.fst hd
        rw [hid, heq] at this
        have := (List.mem_filter.mp this).2
        rw [hf] at this
        simp at this
    · exact fanout_deliv_ids fails _ st.listeners st.listeners
  · intro habs
    by_cases hfire : now - st.lastEmit < st.emitInterval
    · simp only [maybeBroadcast, if_pos hfire]
      exact ⟨fun d hd => by simp at hd, habs⟩
    · simp only [maybeBroadcast, if_neg hfire]
      constructor
      · intro d hd heq
        have := fanout_deliv_mem_targets fails
          (snapshotCopy tCopy st.snapshot) st.listeners st.listeners d hd
        rw [heq] at this
        exact habs this
      · intro hin
        exact habs (fanout_fst_subset fails _ st.listeners st.listeners hin)

/-- Witness for C3: listeners 7, 8, 9 with 8 failing, broadcast firing at
time 1 from a fresh handler. -/
theorem C3_listener_isolation_witness :
    (8 ∉ (maybeBroadcast (fun w => decide (w = 8)) 1 1
        (DataHandler.mk [] [] 3 [7, 8, 9] (1/2) 0)).1.listeners
      ∧ ∀ d ∈ (maybeBroadcast (fun w => decide (w = 8)) 1 1
        (DataHandler.mk [] [] 3 [7, 8, 9] (1/2) 0)).2, d.1 ≠ 8)
    ∧ ((maybeBroadcast (fun w => decide (w = 8)) 1 1
        (DataHandler.mk [] [] 3 [7, 8, 9] (1/2) 0)).2.map Prod.fst
        = [7, 9])
    ∧ (∀ d ∈ (maybeBroadcast (fun w => decide (w = 8)) 2 2
        (DataHandler.mk [] [] 3 [7, 9] (1/2) 1)).2, d.1 ≠ 8) := by
  refine ⟨?_, ?_, ?_⟩
  · exact ((C3_listener_isolation (fun w => decide (w = 8)) 1 1
      (DataHandler.mk [] [] 3 [7, 8, 9] (1/2) 0) 8).1
        (by norm_num)).1 (by decide) (by decide)
  · have h := ((C3_listener_isolation (fun w => decide (w = 8)) 1 1
      (DataHandler.mk [] [] 3 [7, 8, 9] (1/2) 0) 8).1 (by norm_num)).2
    rw [h]
    decide
  · exact ((C3_listener_isolation (fun w => decide (w = 8)) 2 2
      (DataHandler.mk [] [] 3 [7, 9] (1/2) 1) 8).2 (by decide)).1

/-! ### Schedule lemmas for the throttled broadcaster -/

lemma maybeBroadcast_throttled (fails : ℕ → Bool) (now tCopy : ℚ)
    (st : DataHandler) (h : now - st.lastEmit < st.emitInterval) :
    maybeBroadcast fails now tCopy st = (st, []) := by
  simp [maybeBroadcast, if_pos h]

lemma maybeBroadcast_fire_lastEmit (fails : ℕ → Bool) (now tCopy : ℚ)
    (st : DataHandler) (h : ¬ now - st.lastEmit < st.emitInterval) :
    (maybeBroadcast fails now tCopy st).1.lastEmit = now := by
  simp [maybeBroadcast, if_neg h]

lemma maybeBroadcast_fire_snd (fails : ℕ → Bool) (now tCopy : ℚ)
    (st : DataHandler) (h : ¬ now - st.lastEmit < st.emitInterval) :
    (maybeBroadcast fails now tCopy st).2
      = (fanout fails (snapshotCopy tCopy st.snapshot)
          st.listeners st.listeners).2 := by
  simp [maybeBroadcast, if_neg h]

lemma runOps_fst_emitInterval (fails : ℕ → Bool) :
    ∀ (ops : List EvOp) (st : DataHandler),
      (runOps fails ops st).1.emitInterval = st.emitInterval := by
  intro ops
  induction ops with
  | nil => intro st; rfl
  | cons op rest ih =>
      intro st
      cases op with
      | apply t data =>
          simp only [runOps]
          exact ih (processCore t data st)
      | attempt now tCopy =>
          by_cases hth : now - st.lastEmit < st.emitInterval
          · simp only [runOps, if_pos hth]
            exact ih st
          · simp only [runOps, if_neg hth]
            rw [ih (maybeBroadcast fails now tCopy st).1,
              maybeBroadcast_fst_emitInterval]

lemma runOps_fst_snapshot (fails : ℕ → Bool) :
    ∀ (ops : List EvOp) (st : DataHandler),
      (runOps fails ops st).1.snapshot = snapAfter ops st.snapshot := by
  intro ops
  induction ops with
  | nil => intro st; rfl
  | cons op rest ih =>
      intro st
      cases op with
      | apply t data =>
          simp only [runOps]
          rw [ih (processCore t data st)]
          rfl
      | attempt now tCopy =>
          by_cases hth : now - st.lastEmit < st.emitInterval
          · simp only [runOps, if_pos hth]
            rw [ih st]
            rfl
          · simp only [runOps, if_neg hth]
            rw [ih (maybeBroadcast fails now tCopy st).1,
              maybeBroadcast_fst_snapshot]
            rfl

lemma runOps_spacing (fails : ℕ → Bool) :
    ∀ (ops : List EvOp) (st : DataHandler),
      List.Chain' (fun a b : ℚ => st.emitInterval ≤ b - a)
        (st.lastEmit :: ((runOps fails ops st).2.map Prod.fst)) := by
  intro ops
  induction ops with
  | nil => intro st; simp [runOps]
  | cons op rest ih =>
      intro st
      cases op with
      | apply t data =>
          simp only [runOps]
          exact ih (processCore t data st)
      | attempt now tCopy =>
          by_cases hth : now - st.lastEmit < st.emitInterval
          · simp only [runOps, if_pos hth]
            exact ih st
          · simp only [runOps, if_neg hth, List.map_cons]
            apply List.Chain'.cons
            · linarith [not_lt.mp hth]
            · have h := ih (maybeBroadcast fails now tCopy st).1
              rw [maybeBroadcast_fst_emitInterval,
                maybeBroadcast_fire_lastEmit fails now tCopy st hth] at h
              exact h

lemma runOps_append (fails : ℕ → Bool) :
    ∀ (a b : List EvOp) (st : DataHandler),
      runOps fails (a ++ b) st
        = ((runOps fails b (runOps fails a st).1).1,
           (runOps fails a st).2 ++ (runOps fails b (runOps fails a st).1).2) := by
  intro a
  induction a with
  | nil => intro b st; simp [runOps]
  | cons op rest ih =>
      intro b st
      cases op with
      | apply t data =>
          simp only [List.cons_append, runOps]
          exact ih b (processCore t data st)
      | attempt now tCopy =>
          by_cases hth : now - st.lastEmit < st.emitInterval
          · simp only [List.cons_append, runOps, if_pos hth]
            exact ih b st
          · simp only [List.cons_append, runOps, if_neg hth]
            rw [List.append_eq, ih b (maybeBroadcast fails now tCopy st).1]

/-! ### C2: throttled broadcast semantics -/

/-- C2: a broadcast attempt inside the throttle window is a no-op with no
deliveries; an attempt outside it stamps `_last_emit = now` and delivers the
snapshot copy current at that moment to exactly the non-failing listeners;
along any schedule of applies and attempts the firing times are spaced at
least one interval apart; and a firing attempt after a prefix of operations
delivers the snapshot reflecting every apply of that prefix, not an earlier
one. -/
theorem C2_throttled_broadcast (fails : ℕ → Bool) (now tCopy : ℚ)
    (st : DataHandler) (ops1 ops2 : List EvOp) :
    (now - st.lastEmit < st.emitInterval →
        maybeBroadcast fails now tCopy st = (st, []))
    ∧ (¬ now - st.lastEmit < st.emitInterval →
        (maybeBroadcast fails now tCopy st).1.lastEmit = now
        ∧ (∀ d ∈ (maybeBroadcast fails now tCopy st).2,
            d.2 = snapshotCopy tCopy st.snapshot)
        ∧ (maybeBroadcast fails now tCopy st).2.map Prod.fst
            = st.listeners.filter (fun w => !(fails w)))
    ∧ List.Chain' (fun a b : ℚ => st.emitInterval ≤ b - a)
        (st.lastEmit :: ((runOps fails ops1 st).2.map Prod.fst))
    ∧ (¬ now - (runOps fails ops1 st).1.lastEmit
            < (runOps fails ops1 st).1.emitInterval →
        (runOps fails (ops1 ++ EvOp.attempt now tCopy :: ops2) st).2
          = (runOps fails ops1 st).2
            ++ (now,
                (maybeBroadcast fails now tCopy (runOps fails ops1 st).1).2)
              :: (runOps fails ops2
                  (maybeBroadcast fails now tCopy
                    (runOps fails ops1 st).1).1).2
        ∧ ∀ d ∈ (maybeBroadcast fails now tCopy (runOps fails ops1 st).1).2,
            d.2 = snapshotCopy tCopy (snapAfter ops1 st.snapshot)) := by
  refine ⟨maybeBroadcast_throttled fails now tCopy st, ?_,
    runOps_spacing fails ops1 st, ?_⟩
  · intro hfire
    refine ⟨maybeBroadcast_fire_lastEmit fails now tCopy st hfire, ?_, ?_⟩
    · intro d hd
      rw [maybeBroadcast_fire_snd fails now tCopy st hfire] at hd
      exact fanout_deliv_payload fails _ st.listeners st.listeners d hd
    · rw [maybeBroadcast_fire_snd fails now tCopy st hfire]
      exact fanout_deliv_ids fails _ st.listeners st.listeners
  · intro hfire
    constructor
    · rw [runOps_append fails ops1 (EvOp.attempt now tCopy :: ops2) st]
      simp only [runOps, if_neg hfire]
    · intro d hd
      rw [maybeBroadcast_fire_snd fails now tCopy _ hfire] at hd
      have hp := fanout_deliv_payload fails _ _ _ d hd
      rw [hp, runOps_fst_snapshot]

/-- Witness for C2: a throttled attempt at time 1/4, a firing attempt at
time 1 on a handler with one listener, an empty schedule for the spacing
clause, and a one-apply prefix for the currency clause. -/
theorem C2_throttled_broadcast_witness :
    (maybeBroadcast (fun _ => false) (1/4) (1/4)
        (DataHandler.mk [] [] 5 [7] (1/2) 0)
      = (DataHandler.mk [] [] 5 [7] (1/2) 0, []))
    ∧ ((maybeBroadcast (fun _ => false) 1 1
        (DataHandler.mk [] [] 5 [7] (1/2) 0)).1.lastEmit = 1)
    ∧ ((maybeBroadcast (fun _ => false) 1 1
        (DataHandler.mk [] [] 5 [7] (1/2) 0)).2.map Prod.fst = [7])
    ∧ (∀ d ∈ (maybeBroadcast (fun _ => false) 1 1
        (runOps (fun _ => false)
          [EvOp.apply 1 [(Val.str "type", Val.str "battery"),
            (Val.str "remaining", Val.num 80)]]
          (DataHandler.mk [] [] 5 [7] (1/2) 0)).1).2,
        d.2 = snapshotCopy 1
          (snapAfter [EvOp.apply 1 [(Val.str "type", Val.str "battery"),
            (Val.str "remaining", Val.num 80)]]
            (DataHandler.mk [] [] 5 [7] (1/2) 0).snapshot)) := by
  refine ⟨?_, ?_, ?_, ?_⟩
  · exact (C2_throttled_broadcast (fun _ => false) (1/4) (1/4)
      (DataHandler.mk [] [] 5 [7] (1/2) 0) [] []).1 (by norm_num)
  · exact ((C2_throttled_broadcast (fun _ => false) 1 1
      (DataHandler.mk [] [] 5 [7] (1/2) 0) [] []).2.1 (by norm_num)).1
  · have h := ((C2_throttled_broadcast (fun _ => false) 1 1
      (DataHandler.mk [] [] 5 [7] (1/2) 0) [] []).2.1 (by norm_num)).2.2
    rw [h]
    decide
  · have hyp : ¬ ((1 : ℚ) - (runOps (fun _ => false)
        [EvOp.apply 1 [(Val.str "type", Val.str "battery"),
          (Val.str "remaining", Val.num 80)]]
        (DataHandler.mk [] [] 5 [7] (1/2) 0)).1.lastEmit
        < (runOps (fun _ => false)
        [EvOp.apply 1 [(Val.str "type", Val.str "battery"),
          (Val.str "remaining", Val.num 80)]]
        (DataHandler.mk [] [] 5 [7] (1/2) 0)).1.emitInterval) := by
      show ¬ ((1 : ℚ) - 0 < 1/2)
      norm_num
    exact ((C2_throttled_broadcast (fun _ => false) 1 1
      (DataHandler.mk [] [] 5 [7] (1/2) 0)
      [EvOp.apply 1 [(Val.str "type", Val.str "battery"),
        (Val.str "remaining", Val.num 80)]] []).2.2.2 hyp).2

/-! ### C4: snapshot update semantics -/

/-- C4: for every message carrying a truthy `type` tag,
`process_parsed_message` sets the snapshot entry for that tag to the
message's remaining fields (adding a fresh key if never seen, with no
allow-list) and appends the timestamped entry to the history — it is a total
function, so it never fails; and applying the position then battery events
yields exactly the two-category snapshot. -/
theorem C4_apply_snapshot (fails : ℕ → Bool) (fl : PubFlags) (tm : Times)
    (data : Fields) (st : DataHandler) (v : Val) :
    (dget? data (Val.str "type") = some v → v.truthy = true →
      (process_parsed_message fails fl tm data st).state.snapshot
        = dinsert st.snapshot v
            (data.filter (fun p => decide (p.1 ≠ Val.str "type")))
      ∧ (process_parsed_message fails fl tm data st).state.history
        = dequeAppend st.historySize st.history (mkEntry tm.tEntry data))
    ∧ (process_parsed_message (fun _ => false) ⟨true, false, false⟩
        ⟨2, 2, 2, 2⟩
        [(Val.str "type", Val.str "battery"),
         (Val.str "remaining", Val.num 80)]
        (process_parsed_message (fun _ => false) ⟨true, false, false⟩
          ⟨1, 1, 1, 1⟩
          [(Val.str "type", Val.str "position"),
           (Val.str "lat", Val.num 1), (Val.str "lon", Val.num 2)]
          defaultDataHandler).state).state.snapshot
      = [(Val.str "position",
            [(Val.str "lat", Val.num 1), (Val.str "lon", Val.num 2)]),
         (Val.str "battery", [(Val.str "remaining", Val.num 80)])] := by
  constructor
  · intro hv htr
    refine ⟨?_, process_state_history fails fl tm data st⟩
    rw [process_state_snapshot]
    unfold applySnap
    rw [hv]
    simp [htr]
  · rw [process_state_snapshot, process_state_snapshot]
    decide

/-- Witness for C4 at the battery event applied to an empty handler. -/
theorem C4_apply_snapshot_witness :
    (process_parsed_message (fun _ => false) ⟨true, false, false⟩
        ⟨1, 1, 1, 1⟩
        [(Val.str "type", Val.str "battery"),
         (Val.str "remaining", Val.num 80)]
        defaultDataHandler).state.snapshot
      = dinsert defaultDataHandler.snapshot (Val.str "battery")
          ([(Val.str "type", Val.str "battery"),
            (Val.str "remaining", Val.num 80)].filter
              (fun p => decide (p.1 ≠ Val.str "type"))) :=
  ((C4_apply_snapshot (fun _ => false) ⟨true, false, false⟩ ⟨1, 1, 1, 1⟩
      [(Val.str "type", Val.str "battery"),
       (Val.str "remaining", Val.num 80)]
      defaultDataHandler (Val.str "battery")).1 (by decide) (by decide)).1

/-! ### C6: downstream publish failures are contained -/

/-- C6: when the raw publish attempt raises (serialization error or
unreachable sink), `publish_telem` catches it and returns normally as a
logged failure; and the handler state, the websocket deliveries and the
spawned publish payloads of `process_parsed_message` are identical for every
pair of publish-failure environments, so a failed publish never prevents or
delays the application of the next event. -/
theorem C6_publish_isolated (fails : ℕ → Bool) (fl fl' : PubFlags)
    (tm : Times) (data : Fields) (st : DataHandler) (e : String) (d : Fields) :
    (publishAttempt fl d = Except.error e → fl.publisherInit = true →
        publish_telem fl d = PublishOutcome.failedLogged)
    ∧ (process_parsed_message fails fl tm data st).state
        = (process_parsed_message fails fl' tm data st).state
    ∧ (process_parsed_message fails fl tm data st).deliveries
        = (process_parsed_message fails fl' tm data st).deliveries
    ∧ (process_parsed_message fails fl tm data st).cloudPubs
        = (process_parsed_message fails fl' tm data st).cloudPubs := by
  refine ⟨?_, rfl, rfl, rfl⟩
  intro herr hinit
  unfold publish_telem
  rw [hinit, herr]
  simp

/-- Witness for C6: a failing serialization with an initialised client is
caught and logged. -/
theorem C6_publish_isolated_witness :
    publish_telem ⟨true, true, false⟩ [] = PublishOutcome.failedLogged :=
  (C6_publish_isolated (fun _ => false) ⟨true, true, false⟩
      ⟨true, false, false⟩ ⟨1, 1, 1, 1⟩ [] defaultDataHandler
      "serialization error" []).1 rfl rfl

/-! ### C8: cloud publish not gated by the broadcast throttle -/

/-- C8: every `process_parsed_message` call spawns exactly one cloud
publish, and even when the broadcast throttle suppresses the websocket
broadcast entirely the publish still carries the freshly updated
snapshot. -/
theorem C8_publish_unthrottled (fails : ℕ → Bool) (fl : PubFlags)
    (tm : Times) (data : Fields) (st : DataHandler) :
    (process_parsed_message fails fl tm data st).cloudPubs.length = 1
    ∧ (tm.now - st.lastEmit < st.emitInterval →
        (process_parsed_message fails fl tm data st).deliveries = []
        ∧ (process_parsed_message fails fl tm data st).cloudPubs
            = [cloudPayload tm.tPub (applySnap data st.snapshot)]) := by
  constructor
  · rfl
  · intro hth
    have hbr : maybeBroadcast fails tm.now tm.tCopy (processCore tm.tEntry data st)
        = (processCore tm.tEntry data st, []) :=
      maybeBroadcast_throttled fails tm.now tm.tCopy (processCore tm.tEntry data st) hth
    constructor
    · show (maybeBroadcast fails tm.now tm.tCopy
          (processCore tm.tEntry data st)).2 = []
      rw [hbr]
    · show [cloudPayload tm.tPub (maybeBroadcast fails tm.now tm.tCopy
          (processCore tm.tEntry data st)).1.snapshot] = _
      rw [hbr]
      rfl

/-- Witness for C8: a throttled call (time 1/4, interval 1/2) still spawns
its one cloud publish. -/
theorem C8_publish_unthrottled_witness :
    (process_parsed_message (fun _ => false) ⟨true, false, false⟩
        ⟨1/4, 1/4, 1/4, 1/4⟩ [(Val.str "type", Val.str "battery")]
        defaultDataHandler).deliveries = []
    ∧ (process_parsed_message (fun _ => false) ⟨true, false, false⟩
        ⟨1/4, 1/4, 1/4, 1/4⟩ [(Val.str "type", Val.str "battery")]
        defaultDataHandler).cloudPubs
      = [cloudPayload (1/4)
          (applySnap [(Val.str "type", Val.str "battery")]
            defaultDataHandler.snapshot)] :=
  (C8_publish_unthrottled (fun _ => false) ⟨true, false, false⟩
      ⟨1/4, 1/4, 1/4, 1/4⟩ [(Val.str "type", Val.str "battery")]
      defaultDataHandler).2 (by norm_num [defaultDataHandler, DataHandler.init,
        defaultEmitInterval])

/-! ### C9: construction defaults -/

/-- C9 counterexample: the default history capacity of
`DataHandler.__init__` is not 2000. -/
theorem C9_default_capacity_cx : ¬ defaultDataHandler.historySize = 2000 := by
  decide

/-- C9 (amended): a `DataHandler` built with the constructor defaults has
history capacity 1000 (not 2000) and broadcast minimum interval 0.5
seconds. -/
theorem C9_defaults :
    defaultDataHandler.historySize = 1000
    ∧ defaultDataHandler.emitInterval = 1/2 :=
  ⟨rfl, rfl⟩

/-! ### Dictionary lookup lemmas -/

lemma find?_key_map_replace {K V : Type} [DecidableEq K] (k' k : K) (v : V)
    (hne : k' ≠ k) : ∀ d : List (K × V),
    (d.map (fun p => if p.1 = k' then (k', v) else p)).find?
        (fun p => decide (p.1 = k))
      = d.find? (fun p => decide (p.1 = k)) := by
  intro d
  induction d with
  | nil => rfl
  | cons p rest ih =>
      by_cases hp : p.1 = k'
      · simp only [List.map_cons, if_pos hp]
        rw [List.find?_cons, List.find?_cons]
        simp [hne, hp, ih]
      · simp only [List.map_cons, if_neg hp]
        rw [List.find?_cons, List.find?_cons]
        by_cases hk : p.1 = k
        · simp [hk]
        · simp [hk, ih]

lemma dget?_append_single_ne {K V : Type} [DecidableEq K] (k' k : K) (v : V)
    (hne : k' ≠ k) (d : List (K × V)) :
    dget? (d ++ [(k', v)]) k = dget? d k := by
  unfold dget?
  induction d with
  | nil => simp [hne]
  | cons p rest ih =>
      simp only [List.cons_append]
      rw [List.find?_cons, List.find?_cons]
      by_cases hk : p.1 = k
      · simp [hk]
      · simp [hk, hne]

lemma dget?_dinsert_ne {K V : Type} [DecidableEq K] (d : List (K × V))
    (k' k : K) (v : V) (hne : k' ≠ k) :
    dget? (dinsert d k' v) k = dget? d k := by
  unfold dinsert
  by_cases hany : d.any (fun p => decide (p.1 = k'))
  · rw [if_pos hany]
    unfold dget?
    rw [find?_key_map_replace k' k v hne d]
  · rw [if_neg hany]
    exact dget?_append_single_ne k' k v hne d

lemma dget?_dunion_of_none {K V : Type} [DecidableEq K] (k : K) :
    ∀ (b a : List (K × V)), (∀ p ∈ b, p.1 ≠ k) →
      dget? (dunion a b) k = dget? a k := by
  intro b
  induction b with
  | nil => intro a _; rfl
  | cons p rest ih =>
      intro a h
      show dget? (dunion (dinsert a p.1 p.2) rest) k = _
      rw [ih (dinsert a p.1 p.2) (fun q hq => h q (List.mem_cons_of_mem p hq))]
      exact dget?_dinsert_ne a p.1 k p.2 (h p (List.mem_cons_self p rest))

lemma dget?_eq_none_iff {K V : Type} [DecidableEq K] (d : List (K × V))
    (k : K) : dget? d k = Option.none ↔ ∀ p ∈ d, p.1 ≠ k := by
  unfold dget?
  simp [List.find?_eq_none]

/-! ### C10: untyped messages leave the snapshot untouched -/

/-- C10: a message whose `type` key is absent or falsy is still appended to
the bounded history (timestamped with its arrival time when the message
itself carries no `ts` key), while the snapshot mapping is left completely
unchanged. -/
theorem C10_untyped_frame (fails : ℕ → Bool) (fl : PubFlags) (tm : Times)
    (data : Fields) (st : DataHandler) :
    (dget? data (Val.str "type") = Option.none
      ∨ ∃ v, dget? data (Val.str "type") = some v ∧ v.truthy = false) →
    (process_parsed_message fails fl tm data st).state.snapshot = st.snapshot
    ∧ (process_parsed_message fails fl tm data st).state.history
        = dequeAppend st.historySize st.history (mkEntry tm.tEntry data)
    ∧ (dget? data (Val.str "ts") = Option.none →
        dget? (mkEntry tm.tEntry data) (Val.str "ts")
          = some (Val.num tm.tEntry)) := by
  intro hcase
  refine ⟨?_, process_state_history fails fl tm data st, ?_⟩
  · rw [process_state_snapshot]
    unfold applySnap
    rcases hcase with h | ⟨v, hv, htr⟩
    · rw [h]
    · rw [hv]
      simp [htr]
  · intro hts
    unfold mkEntry
    rw [dget?_dunion_of_none (Val.str "ts") data
      [(Val.str "ts", Val.num tm.tEntry)]
      ((dget?_eq_none_iff data (Val.str "ts")).mp hts)]
    simp [dget?]

/-- Witness for C10: a typeless position-like message at time 3 applied to
the default handler. -/
theorem C10_untyped_frame_witness :
    (process_parsed_message (fun _ => false) ⟨true, false, false⟩
        ⟨3, 3, 3, 3⟩ [(Val.str "lat", Val.num 5)]
        defaultDataHandler).state.snapshot = defaultDataHandler.snapshot
    ∧ (process_parsed_message (fun _ => false) ⟨true, false, false⟩
        ⟨3, 3, 3, 3⟩ [(Val.str "lat", Val.num 5)]
        defaultDataHandler).state.history
      = dequeAppend defaultDataHandler.historySize defaultDataHandler.history
          (mkEntry 3 [(Val.str "lat", Val.num 5)])
    ∧ dget? (mkEntry 3 [(Val.str "lat", Val.num 5)]) (Val.str "ts")
      = some (Val.num 3) := by
  have h := C10_untyped_frame (fun _ => false) ⟨true, false, false⟩
    ⟨3, 3, 3, 3⟩ [(Val.str "lat", Val.num 5)] defaultDataHandler
    (Or.inl (by decide))
  exact ⟨h.1, h.2.1, h.2.2 (by decide)⟩

/-! ### C7: history read slicing -/

/-- C7 counterexample: with capacity 3 and events E1..E5 applied in order,
`get_history(0)` returns the whole stored history (three entries) rather
than zero events, because the Python slice `[-0:]` is `[0:]`. -/
theorem C7_limit_zero_cx :
    ¬ (get_history 0 (runMessages (fun _ => false) ⟨true, false, false⟩
        [(⟨1, 1, 1, 1⟩, [(Val.str "type", Val.str "E1")]),
         (⟨2, 2, 2, 2⟩, [(Val.str "type", Val.str "E2")]),
         (⟨3, 3, 3, 3⟩, [(Val.str "type", Val.str "E3")]),
         (⟨4, 4, 4, 4⟩, [(Val.str "type", Val.str "E4")]),
         (⟨5, 5, 5, 5⟩, [(Val.str "type", Val.str "E5")])]
        (DataHandler.init 3 (1/2)))).length = 0 := by
  have h := (runMessages_history (fun _ => false) ⟨true, false, false⟩
    [(⟨1, 1, 1, 1⟩, [(Val.str "type", Val.str "E1")]),
     (⟨2, 2, 2, 2⟩, [(Val.str "type", Val.str "E2")]),
     (⟨3, 3, 3, 3⟩, [(Val.str "type", Val.str "E3")]),
     (⟨4, 4, 4, 4⟩, [(Val.str "type", Val.str "E4")]),
     (⟨5, 5, 5, 5⟩, [(Val.str "type", Val.str "E5")])]
    (DataHandler.init 3 (1/2))).1
  show ¬ (runMessages (fun _ => false) ⟨true, false, false⟩ _
      (DataHandler.init 3 (1/2))).history.length = 0
  rw [h]
  decide

/-- C7 (amended): for `limit ≥ 1`, `get_history(limit)` returns the most
recent `min(limit, len(history))` events, newest last, as a fresh list; in
the capacity-3 scenario with E1..E5 applied in order `get_history(10)`
returns exactly the E3, E4, E5 entries; but for `limit = 0` it returns the
entire history rather than zero events. -/
theorem C7_get_history (st : DataHandler) (limit : ℕ) :
    (1 ≤ limit →
      get_history limit st = st.history.drop (st.history.length - limit)
      ∧ (get_history limit st).length = min limit st.history.length)
    ∧ get_history 0 st = st.history
    ∧ get_history 10 (runMessages (fun _ => false) ⟨true, false, false⟩
        [(⟨1, 1, 1, 1⟩, [(Val.str "type", Val.str "E1")]),
         (⟨2, 2, 2, 2⟩, [(Val.str "type", Val.str "E2")]),
         (⟨3, 3, 3, 3⟩, [(Val.str "type", Val.str "E3")]),
         (⟨4, 4, 4, 4⟩, [(Val.str "type", Val.str "E4")]),
         (⟨5, 5, 5, 5⟩, [(Val.str "type", Val.str "E5")])]
        (DataHandler.init 3 (1/2)))
      = [mkEntry 3 [(Val.str "type", Val.str "E3")],
         mkEntry 4 [(Val.str "type", Val.str "E4")],
         mkEntry 5 [(Val.str "type", Val.str "E5")]] := by
  refine ⟨?_, rfl, ?_⟩
  · intro hl
    have hne : limit ≠ 0 := by omega
    constructor
    · show pyTailSlice st.history limit = _
      unfold pyTailSlice
      rw [if_neg hne]
    · show (pyTailSlice st.history limit).length = _
      unfold pyTailSlice
      rw [if_neg hne, List.length_drop]
      omega
  · have h := (runMessages_history (fun _ => false) ⟨true, false, false⟩
      [(⟨1, 1, 1, 1⟩, [(Val.str "type", Val.str "E1")]),
       (⟨2, 2, 2, 2⟩, [(Val.str "type", Val.str "E2")]),
       (⟨3, 3, 3, 3⟩, [(Val.str "type", Val.str "E3")]),
       (⟨4, 4, 4, 4⟩, [(Val.str "type", Val.str "E4")]),
       (⟨5, 5, 5, 5⟩, [(Val.str "type", Val.str "E5")])]
      (DataHandler.init 3 (1/2))).1
    unfold get_history pyTailSlice
    rw [if_neg (by decide : (10 : ℕ) ≠ 0), h]
    decide

/-- Witness for C7 at limit 2 on a three-entry history. -/
theorem C7_get_history_witness :
    (get_history 2 (DataHandler.mk []
        [[(Val.str "a", Val.num 1)], [(Val.str "b", Val.num 2)],
         [(Val.str "c", Val.num 3)]] 3 [] 1 0)
      = (DataHandler.mk []
        [[(Val.str "a", Val.num 1)], [(Val.str "b", Val.num 2)],
         [(Val.str "c", Val.num 3)]] 3 [] 1 0).history.drop
          ((DataHandler.mk []
            [[(Val.str "a", Val.num 1)], [(Val.str "b", Val.num 2)],
             [(Val.str "c", Val.num 3)]] 3 [] 1 0).history.length - 2))
    ∧ (get_history 2 (DataHandler.mk []
        [[(Val.str "a", Val.num 1)], [(Val.str "b", Val.num 2)],
         [(Val.str "c", Val.num 3)]] 3 [] 1 0)).length
      = min 2 (DataHandler.mk []
        [[(Val.str "a", Val.num 1)], [(Val.str "b", Val.num 2)],
         [(Val.str "c", Val.num 3)]] 3 [] 1 0).history.length :=
  (C7_get_history (DataHandler.mk []
      [[(Val.str "a", Val.num 1)], [(Val.str "b", Val.num 2)],
       [(Val.str "c", Val.num 3)]] 3 [] 1 0) 2).1 (by decide)

/-! ### C5: lock discipline of the two read paths -/

lemma lockHeld_append : ∀ (a b : List Act) (h : Bool),
    lockHeld (a ++ b) h = lockHeld a h ++ lockHeld b (heldAfter a h) := by
  intro a
  induction a with
  | nil => intro b h; rfl
  | cons x rest ih =>
      intro b h
      cases x <;> simp [lockHeld, heldAfter, ih]

lemma loop_no_reads (sends : List Bool) :
    ∀ p ∈ lockHeld ((sends.map sendSteps).flatten) false,
      (p.1 = Act.netSend → p.2 = false)
      ∧ p.1 ≠ Act.readSnapMap ∧ p.1 ≠ Act.readListenerSet := by
  induction sends with
  | nil => intro p hp; simp [lockHeld] at hp
  | cons ok rest ih =>
      intro p hp
      rw [List.map_cons, List.flatten_cons, lockHeld_append] at hp
      cases ok
      · rcases List.mem_append.mp hp with h | h
        · simp [sendSteps, lockHeld] at h
          rcases h with rfl | rfl | rfl | rfl <;> decide
        · exact ih p (by simpa [sendSteps, heldAfter] using h)
      · rcases List.mem_append.mp hp with h | h
        · simp [sendSteps, lockHeld] at h
          rcases h with rfl
          decide
        · exact ih p (by simpa [sendSteps, heldAfter] using h)

/-- C5 (amended): in the broadcast path the snapshot copy and the listener
copy are taken with the lock held and every network send happens with the
lock released; but the cloud publish path reads the snapshot map with the
lock never held — the publisher's reads are not inside the critical
section. -/
theorem C5_lock_discipline (sends : List Bool) :
    (∀ p ∈ lockHeld (broadcastFireTrace sends) false,
        (p.1 = Act.readSnapMap ∨ p.1 = Act.readListenerSet) → p.2 = true)
    ∧ (∀ p ∈ lockHeld (broadcastFireTrace sends) false,
        p.1 = Act.netSend → p.2 = false)
    ∧ (∀ p ∈ lockHeld publishCloudTrace false,
        p.1 = Act.readSnapMap → p.2 = false) := by
  have hsplit : ∀ p ∈ lockHeld (broadcastFireTrace sends) false,
      p ∈ ([(Act.writeLastEmit, false), (Act.acquire, false),
            (Act.readSnapMap, true), (Act.readListenerSet, true),
            (Act.release, true)] : List (Act × Bool))
        ∨ p ∈ lockHeld ((sends.map sendSteps).flatten) false := by
    intro p hp
    rw [show broadcastFireTrace sends
        = [Act.writeLastEmit, Act.acquire, Act.readSnapMap,
           Act.readListenerSet, Act.release] ++ (sends.map sendSteps).flatten
      from rfl, lockHeld_append] at hp
    exact List.mem_append.mp hp
  refine ⟨?_, ?_, ?_⟩
  · intro p hp hread
    rcases hsplit p hp with h | h
    · simp at h
      rcases h with rfl | rfl | rfl | rfl | rfl
      all_goals first
        | rfl
        | (rcases hread with h' | h' <;> simp at h')
    · rcases hread with h' | h'
      · exact absurd h' (loop_no_reads sends p h).2.1
      · exact absurd h' (loop_no_reads sends p h).2.2
  · intro p hp hsend
    rcases hsplit p hp with h | h
    · simp at h
      rcases h with rfl | rfl | rfl | rfl | rfl
      all_goals first
        | rfl
        | simp at hsend
    · exact (loop_no_reads sends p h).1 hsend
  · have hdec : ∀ q ∈ lockHeld publishCloudTrace false,
        q.1 = Act.readSnapMap → q.2 = false := by decide
    exact hdec

/-- C5 counterexample: it is not the case that every snapshot read of the
cloud publish path happens with the lock held — `_maybe_publish_cloud`
builds its payload from `self.snapshot` outside any critical section. -/
theorem C5_publisher_unlocked_cx :
    ¬ (∀ p ∈ lockHeld publishCloudTrace false,
        p.1 = Act.readSnapMap → p.2 = true) := by
  decide

/-- Witness for C5 on the one-failing-listener trace: the snapshot copy step
runs locked, the send step runs unlocked, and the publisher's snapshot read
runs unlocked. -/
theorem C5_lock_discipline_witness :
    ((Act.readSnapMap, true) : Act × Bool).2 = true
    ∧ ((Act.netSend, false) : Act × Bool).2 = false
    ∧ ((Act.readSnapMap, false) : Act × Bool).2 = false :=
  ⟨(C5_lock_discipline [false]).1 (Act.readSnapMap, true) (by decide)
      (Or.inl rfl),
   (C5_lock_discipline [false]).2.1 (Act.netSend, false) (by decide) rfl,
   (C5_lock_discipline [false]).2.2 (Act.readSnapMap, false) (by decide) rfl⟩

end Telemetry
